import Mathlib

set_option linter.unusedVariables false

/-
Shallow embedding of the atomic-ring-storage crate (src/src/lib.rs).

The Rust code is a fixed-capacity ring buffer of slots. Each slot carries a
Lock: a single signed integer refcount acting as a reader/writer state machine
(negative one meaning write-locked, zero meaning empty, one meaning idle
occupied, greater than one meaning shared by readers). The embedding is
sequential: atomic operations become pure state transitions, and the weak
compare-and-exchange of the source is modelled as deterministic (no spurious
failure). Each Lock operation is rendered as a function from the starting
refcount value to a LockRun: the sequence of refcount values the operation
stores (its trace), the returned outcome, and whether the user callback was
invoked. Callbacks are pure, so a callback of the source becomes its result
value here.

Array indexing in the source panics when out of bounds; the embedding uses
List.getD with a default element, and the theorems that depend on in-bounds
access carry explicit length hypotheses tying the arrays to the declared size.
-/

/-- Outcome of a single Lock operation: the successive refcount values the
operation wrote (starting with the initial value), the operation result, and
whether the user callback ran. -/
structure LockRun (R : Type) where
  trace : List Int
  result : Option R
  invoked : Bool
deriving DecidableEq

/-- Final refcount value after the operation (last element of the trace). -/
def LockRun.final {R : Type} (r : LockRun R) : Int :=
  r.trace.getLastD 0

/-- Lock.create of the source: compare-and-exchange the refcount from 0 to -1;
on success run the callback (modelled by its outcome f), then store 1 when the
callback produced a value and 0 otherwise, returning the outcome. On a failed
exchange return none without touching anything. -/
def Lock.create {R : Type} (s : Int) (f : Option R) : LockRun R :=
  if s = 0 then
    ⟨[s, -1, if f.isSome then 1 else 0], f, true⟩
  else
    ⟨[s], none, false⟩

/-- Lock.update of the source: identical to create except the
compare-and-exchange requires the refcount to be exactly 1. -/
def Lock.update {R : Type} (s : Int) (f : Option R) : LockRun R :=
  if s = 1 then
    ⟨[s, -1, if f.isSome then 1 else 0], f, true⟩
  else
    ⟨[s], none, false⟩

/-- Lock.read of the source: fetch-and-update that increments the refcount
only when it is strictly positive; on success run the callback (result v),
then fetch-and-subtract 1. On failure return none. -/
def Lock.read {R : Type} (s : Int) (v : R) : LockRun R :=
  if 0 < s then
    ⟨[s, s + 1, s], some v, true⟩
  else
    ⟨[s], none, false⟩

/-- ItemHdr of the source: the slot Lock state (field lock, the refcount of
the embedded Lock), the external reference count (AtomicU32), and the slot id
last written (plain usize). -/
structure ItemHdr where
  lock : Int
  refcount : Nat
  id : Nat
deriving DecidableEq

/-- Default ItemHdr of the source: lock 0, refcount 0, id 0. -/
def hdr0 : ItemHdr := ⟨0, 0, 0⟩

instance : Inhabited ItemHdr := ⟨hdr0⟩

/-- StorageHdr of the source: fixed slot count and the shared allocation
counter. -/
structure StorageHdr where
  size : Nat
  next_id : Nat
deriving DecidableEq

/-- Token of the source: an opaque allocation id; the slot position is
id mod size. -/
structure Token where
  id : Nat
deriving DecidableEq

/-- Storage of the source: a borrowed StorageHdr, the data array, and the
parallel ItemHdr array. -/
structure Storage (T : Type) where
  header : StorageHdr
  items : List T
  item_hdrs : List ItemHdr
deriving DecidableEq

/-- Storage.new of the source: stores the three borrowed views verbatim; the
source performs no validation of the slot count or the array lengths. -/
def Storage.new {T : Type} (header : StorageHdr) (items : List T)
    (item_hdrs : List ItemHdr) : Storage T :=
  ⟨header, items, item_hdrs⟩

/-- Storage.size of the source. -/
def Storage.size {T : Type} (s : Storage T) : Nat :=
  s.header.size

/-- The scan loop of Storage.put. Starting at counter value id with rem
candidates left (the loop runs for i in 0..size, so rem starts at size), try
Lock.create on the slot at position id mod size. The create callback of the
source always returns a pointer wrapped in a value, so create succeeds exactly
when the slot lock is 0 and then settles the lock at 1; the caller callback f
then mutates the claimed element (its Bool result is discarded by the source)
and the loop returns the token together with the updated arrays. On a failed
create move to the next position. -/
def putGo {T : Type} [Inhabited T] (f : T → T × Bool) (sz : Nat)
    (hdrs : List ItemHdr) (items : List T) :
    Nat → Nat → Option (Token × List ItemHdr × List T)
  | _, 0 => none
  | id, rem + 1 =>
    if (hdrs.getD (id % sz) hdr0).lock = 0 then
      some (⟨id⟩,
        hdrs.set (id % sz) { hdrs.getD (id % sz) hdr0 with lock := 1 },
        items.set (id % sz) (f (items.getD (id % sz) default)).1)
    else
      putGo f sz hdrs items (id + 1) rem

/-- Storage.put of the source: fetch-and-add the allocation counter, then scan
one full lap of the ring starting at the drawn value. Returns the token (or
none after a fruitless lap) together with the updated storage. -/
def Storage.put {T : Type} [Inhabited T] (s : Storage T) (f : T → T × Bool) :
    Option Token × Storage T :=
  match putGo f s.header.size s.item_hdrs s.items s.header.next_id
      s.header.size with
  | some (t, hdrs2, items2) =>
    (some t, ⟨⟨s.header.size, s.header.next_id + 1⟩, items2, hdrs2⟩)
  | none =>
    (none, ⟨⟨s.header.size, s.header.next_id + 1⟩, s.items, s.item_hdrs⟩)

/-- Storage.get of the source: compute pos as the token id mod size and run
Lock.read on that slot, the callback applying g to the slot data. The source
performs no comparison between the token id and the id stored in the slot
header. -/
def Storage.get {T R : Type} [Inhabited T] (s : Storage T) (t : Token)
    (g : T → R) : Option R :=
  (Lock.read ((s.item_hdrs.getD (t.id % s.header.size) hdr0).lock)
    (g (s.items.getD (t.id % s.header.size) default))).result

/-- Concrete storage of one slot holding Nat data, freshly zero-initialized. -/
def st1 : Storage Nat := ⟨⟨1, 0⟩, [0], [hdr0]⟩

/-- Concrete storage of two slots holding Nat data, freshly zero-initialized. -/
def st2 : Storage Nat := ⟨⟨2, 0⟩, [0, 0], [hdr0, hdr0]⟩

/-- Insertion callback writing the value v and asking to keep the insertion. -/
def fput (v : Nat) : Nat → Nat × Bool :=
  fun _ => (v, true)

theorem getD_set_self {α : Type} (l : List α) (i : Nat) (x d : α)
    (h : i < l.length) : (l.set i x).getD i d = x := by
  induction l generalizing i with
  | nil => simp at h
  | cons a as ih =>
    cases i with
    | zero => rfl
    | succ n =>
      simp only [List.set, List.getD_cons_succ]
      exact ih n (by simpa using h)

theorem getD_set_ne {α : Type} (l : List α) (i j : Nat) (x d : α)
    (h : i ≠ j) : (l.set i x).getD j d = l.getD j d := by
  induction l generalizing i j with
  | nil => rfl
  | cons a as ih =>
    cases i with
    | zero =>
      cases j with
      | zero => exact absurd rfl h
      | succ m => rfl
    | succ n =>
      cases j with
      | zero => rfl
      | succ m =>
        simp only [List.set, List.getD_cons_succ]
        exact ih n m (by omega)

/-- Success characterization of the put scan loop: a returned token names the
first eligible position, the header array gets exactly that slot lock set
to 1 (refcount and id fields untouched), and the data array gets exactly that
slot overwritten with the first component of the callback result. -/
theorem putGo_some {T : Type} [Inhabited T] (f : T → T × Bool) (sz : Nat)
    (hdrs : List ItemHdr) (items : List T) :
    ∀ (rem id : Nat) (t : Token) (hdrs2 : List ItemHdr) (items2 : List T),
    putGo f sz hdrs items id rem = some (t, hdrs2, items2) →
    (hdrs.getD (t.id % sz) hdr0).lock = 0 ∧
    hdrs2 = hdrs.set (t.id % sz)
      { hdrs.getD (t.id % sz) hdr0 with lock := 1 } ∧
    items2 = items.set (t.id % sz) (f (items.getD (t.id % sz) default)).1 ∧
    id ≤ t.id ∧ t.id < id + rem := by
  intro rem
  induction rem with
  | zero =>
    intro id t hdrs2 items2 h
    simp [putGo] at h
  | succ n ih =>
    intro id t hdrs2 items2 h
    by_cases hc : (hdrs.getD (id % sz) hdr0).lock = 0
    · simp only [putGo, if_pos hc, Option.some.injEq, Prod.mk.injEq] at h
      obtain ⟨ht, hh, hi⟩ := h
      subst ht
      refine ⟨hc, hh.symm, hi.symm, ?_, ?_⟩
      · show id ≤ id
        exact Nat.le_refl id
      · show id < id + (n + 1)
        omega
    · simp only [putGo, if_neg hc] at h
      obtain ⟨c1, c2, c3, c4, c5⟩ := ih (id + 1) t hdrs2 items2 h
      exact ⟨c1, c2, c3, by omega, by omega⟩

/-- Failure characterization of the put scan loop: the scan returns none
exactly when no candidate position in the lap has lock state 0. -/
theorem putGo_none {T : Type} [Inhabited T] (f : T → T × Bool) (sz : Nat)
    (hdrs : List ItemHdr) (items : List T) :
    ∀ (rem id : Nat),
    putGo f sz hdrs items id rem = none ↔
      ∀ j, j < rem → (hdrs.getD ((id + j) % sz) hdr0).lock ≠ 0 := by
  intro rem
  induction rem with
  | zero =>
    intro id
    simp [putGo]
  | succ n ih =>
    intro id
    by_cases hc : (hdrs.getD (id % sz) hdr0).lock = 0
    · simp only [putGo, if_pos hc]
      constructor
      · intro h
        exact Option.noConfusion h
      · intro h
        exact absurd hc (by simpa using h 0 (Nat.succ_pos n))
    · simp only [putGo, if_neg hc]
      rw [ih (id + 1)]
      constructor
      · intro h j hj
        cases j with
        | zero => simpa using hc
        | succ k =>
          have hk := h k (by omega)
          have harith : id + 1 + k = id + (k + 1) := by omega
          rw [harith] at hk
          exact hk
      · intro h j hj
        have hk := h (j + 1) (by omega)
        have harith : id + (j + 1) = id + 1 + j := by omega
        rw [harith] at hk
        exact hk

/-- Success characterization of Storage.put: on a returned token the slot at
position token id mod size was empty (lock 0), is now committed (lock 1) with
the callback result written, the other slots and the refcount and id fields
are untouched, and the token id lies in the scanned lap. -/
theorem put_success_core {T : Type} [Inhabited T] (s : Storage T)
    (f : T → T × Bool) (t : Token) (s2 : Storage T)
    (hput : s.put f = (some t, s2)) :
    0 < s.header.size ∧
    s2.header = ⟨s.header.size, s.header.next_id + 1⟩ ∧
    (s.item_hdrs.getD (t.id % s.header.size) hdr0).lock = 0 ∧
    s2.item_hdrs = s.item_hdrs.set (t.id % s.header.size)
      { s.item_hdrs.getD (t.id % s.header.size) hdr0 with lock := 1 } ∧
    s2.items = s.items.set (t.id % s.header.size)
      (f (s.items.getD (t.id % s.header.size) default)).1 ∧
    s.header.next_id ≤ t.id ∧
    t.id < s.header.next_id + s.header.size := by
  rcases hEq : putGo f s.header.size s.item_hdrs s.items s.header.next_id
      s.header.size with _ | ⟨t', hdrs2, items2⟩
  · rw [Storage.put, hEq] at hput
    simp at hput
  · rw [Storage.put, hEq] at hput
    simp only [Prod.mk.injEq, Option.some.injEq] at hput
    obtain ⟨ht, hs2⟩ := hput
    subst ht
    subst hs2
    obtain ⟨c1, c2, c3, c4, c5⟩ := putGo_some f _ _ _ _ _ _ _ _ hEq
    exact ⟨by omega, rfl, c1, c2, c3, c4, c5⟩

/-- Setting one slot header to a copy with lock replaced changes no refcount
field and no id field at any position. -/
theorem set_lock_keeps_fields (hdrs : List ItemHdr) (i p : Nat) :
    ((hdrs.set i { hdrs.getD i hdr0 with lock := 1 }).getD p hdr0).refcount
        = (hdrs.getD p hdr0).refcount ∧
    ((hdrs.set i { hdrs.getD i hdr0 with lock := 1 }).getD p hdr0).id
        = (hdrs.getD p hdr0).id := by
  by_cases hp : i = p
  · subst hp
    by_cases hb : i < hdrs.length
    · rw [getD_set_self _ _ _ _ hb]
      exact ⟨rfl, rfl⟩
    · rw [List.set_eq_of_length_le (by omega)]
      exact ⟨rfl, rfl⟩
  · rw [getD_set_ne _ _ _ _ _ hp]
    exact ⟨rfl, rfl⟩

/-- Storage.get succeeds exactly when the slot lock is positive, returning the
callback applied to the current slot data. -/
theorem get_pos_lock {T R : Type} [Inhabited T] (s : Storage T) (t : Token)
    (g : T → R)
    (h : 0 < (s.item_hdrs.getD (t.id % s.header.size) hdr0).lock) :
    s.get t g = some (g (s.items.getD (t.id % s.header.size) default)) := by
  rw [Storage.get, Lock.read, if_pos h]

/-- Storage.get fails exactly when the slot lock is nonpositive. -/
theorem get_nonpos_lock {T R : Type} [Inhabited T] (s : Storage T) (t : Token)
    (g : T → R)
    (h : (s.item_hdrs.getD (t.id % s.header.size) hdr0).lock ≤ 0) :
    s.get t g = none := by
  rw [Storage.get, Lock.read]
  rw [if_neg (show ¬ (0 : Int)
      < (s.item_hdrs.getD (t.id % s.header.size) hdr0).lock by omega)]

/-- Storage.put never changes the refcount field or the id field of any slot
header, and always bumps the allocation counter by one. -/
theorem put_preserves_bookkeeping {T : Type} [Inhabited T] (s : Storage T)
    (f : T → T × Bool) (p : Nat) :
    ((s.put f).2.item_hdrs.getD p hdr0).refcount
        = (s.item_hdrs.getD p hdr0).refcount ∧
    ((s.put f).2.item_hdrs.getD p hdr0).id = (s.item_hdrs.getD p hdr0).id ∧
    (s.put f).2.header.next_id = s.header.next_id + 1 := by
  rcases hEq : putGo f s.header.size s.item_hdrs s.items s.header.next_id
      s.header.size with _ | ⟨t', hdrs2, items2⟩
  · have hh : (s.put f).2.item_hdrs = s.item_hdrs := by
      rw [Storage.put, hEq]
    have hn : (s.put f).2.header.next_id = s.header.next_id + 1 := by
      rw [Storage.put, hEq]
    rw [hh, hn]
    exact ⟨rfl, rfl, rfl⟩
  · have hh : (s.put f).2.item_hdrs = hdrs2 := by
      rw [Storage.put, hEq]
    have hn : (s.put f).2.header.next_id = s.header.next_id + 1 := by
      rw [Storage.put, hEq]
    obtain ⟨c1, c2, c3, c4, c5⟩ := putGo_some f _ _ _ _ _ _ _ _ hEq
    rw [hh, hn, c2]
    obtain ⟨k1, k2⟩ := set_lock_keeps_fields s.item_hdrs
      (t'.id % s.header.size) p
    exact ⟨k1, k2, rfl⟩

/-- C1 counterexample: a token whose id (5) differs from the id stored in the
slot it maps to (0, never written by put) does not make get report absent; get
invokes the callback on the new tenant data and returns it. -/
theorem c1_stale_token_reads_new_data :
    (((st1.put (fput 42)).2.item_hdrs.getD 0 hdr0).id ≠ (5 : Nat)) ∧
    (st1.put (fput 42)).2.get ⟨5⟩ (fun x => x) = some 42 := by
  decide

/-- C1 (amended): get performs no staleness check. The token id matters only
through the position it maps to; get invokes the callback via the Lock read
path exactly when the slot lock state is positive, and reports absent exactly
when it is nonpositive, regardless of the id stored in the slot header. -/
theorem get_ignores_stored_id {T R : Type} [Inhabited T] (s : Storage T)
    (t t2 : Token) (g : T → R) :
    (t2.id % s.header.size = t.id % s.header.size →
      s.get t2 g = s.get t g) ∧
    (0 < (s.item_hdrs.getD (t.id % s.header.size) hdr0).lock →
      s.get t g = some (g (s.items.getD (t.id % s.header.size) default))) ∧
    ((s.item_hdrs.getD (t.id % s.header.size) hdr0).lock ≤ 0 →
      s.get t g = none) := by
  refine ⟨?_, ?_, ?_⟩
  · intro hp
    rw [Storage.get, Storage.get, hp]
  · intro hl
    exact get_pos_lock s t g hl
  · intro hl
    exact get_nonpos_lock s t g hl

/-- C1 witness: after one put on a fresh one-slot storage, the stale token 5
and the issued token 0 observe the same slot, get succeeds on the positive
lock, and get on the fresh storage with lock 0 fails. -/
theorem get_ignores_stored_id_witness :
    (st1.put (fput 42)).2.get ⟨5⟩ (fun x => x)
        = (st1.put (fput 42)).2.get ⟨0⟩ (fun x => x) ∧
    (st1.put (fput 42)).2.get ⟨0⟩ (fun x => x) = some 42 ∧
    st1.get ⟨0⟩ (fun x => x) = none := by
  refine ⟨?_, ?_, ?_⟩
  · exact (get_ignores_stored_id (st1.put (fput 42)).2 ⟨0⟩ ⟨5⟩
      (fun x => x)).1 (by decide)
  · exact (get_ignores_stored_id (st1.put (fput 42)).2 ⟨0⟩ ⟨0⟩
      (fun x => x)).2.1 (by decide)
  · exact (get_ignores_stored_id st1 ⟨0⟩ ⟨0⟩ (fun x => x)).2.2 (by decide)

/-- C2 counterexample: put succeeds on a fresh two-slot storage, yet the
claimed slot external refcount stays 0 (not 1), and after a second successful
put returning token id 1 the stored id of its slot stays 0 (the new id is
never written into the ItemHdr). -/
theorem c2_put_sets_no_refcount_no_id :
    (st2.put (fput 1)).1 = some ⟨0⟩ ∧
    ((st2.put (fput 1)).2.item_hdrs.getD 0 hdr0).refcount = 0 ∧
    ((st2.put (fput 1)).2.put (fput 2)).1 = some ⟨1⟩ ∧
    (((st2.put (fput 1)).2.put (fput 2)).2.item_hdrs.getD 1 hdr0).id = 0 := by
  decide

/-- C2 (amended): whenever put succeeds with token t it has invoked the
callback on the claimed slot data (the slot now holds the first component of
the callback result) and committed the slot by setting its lock state to 1;
contrary to the claim it leaves both the external refcount and the stored id
of the slot unchanged. -/
theorem put_commits_lock_only {T : Type} [Inhabited T] (s : Storage T)
    (f : T → T × Bool) (t : Token) (s2 : Storage T)
    (h1 : s.items.length = s.header.size)
    (h2 : s.item_hdrs.length = s.header.size)
    (hput : s.put f = (some t, s2)) :
    (s2.item_hdrs.getD (t.id % s.header.size) hdr0).lock = 1 ∧
    s2.items.getD (t.id % s.header.size) default
        = (f (s.items.getD (t.id % s.header.size) default)).1 ∧
    (s2.item_hdrs.getD (t.id % s.header.size) hdr0).refcount
        = (s.item_hdrs.getD (t.id % s.header.size) hdr0).refcount ∧
    (s2.item_hdrs.getD (t.id % s.header.size) hdr0).id
        = (s.item_hdrs.getD (t.id % s.header.size) hdr0).id := by
  obtain ⟨hsz, hhdr, hl0, hset, hitems, hlo, hhi⟩ :=
    put_success_core s f t s2 hput
  have hpos : t.id % s.header.size < s.header.size := Nat.mod_lt _ hsz
  rw [hset, hitems]
  rw [getD_set_self s.item_hdrs (t.id % s.header.size) _ hdr0 (by omega)]
  rw [getD_set_self s.items (t.id % s.header.size) _ default (by omega)]
  exact ⟨rfl, rfl, rfl, rfl⟩

/-- C2 witness: on the concrete one-slot storage put commits the slot with
lock 1 and the written value, leaving refcount and id at their old values. -/
theorem put_commits_lock_only_witness :
    ((⟨⟨1, 1⟩, [42], [⟨1, 0, 0⟩]⟩ : Storage Nat).item_hdrs.getD 0 hdr0).lock
        = 1 ∧
    (⟨⟨1, 1⟩, [42], [⟨1, 0, 0⟩]⟩ : Storage Nat).items.getD 0 default = 42 := by
  have h := put_commits_lock_only st1 (fput 42) ⟨0⟩
    ⟨⟨1, 1⟩, [42], [⟨1, 0, 0⟩]⟩ (by decide) (by decide) (by decide)
  exact ⟨h.1, h.2.1⟩

/-- C3 counterexample: after one successful put on a fresh one-slot storage
the slot external refcount is 0, hence eligible for reuse per the claim, yet
a second put reports absent instead of re-claiming the occupied slot. -/
theorem c3_zero_refcount_slot_not_reclaimed :
    ((st1.put (fput 7)).2.item_hdrs.getD 0 hdr0).refcount = 0 ∧
    ((st1.put (fput 7)).2.put (fput 8)).1 = none := by
  decide

/-- C3 (amended): put draws exactly one counter value (the counter advances by
one) and scans at most size candidate positions; eligibility is decided by the
slot lock state alone - the external refcount is never consulted and occupied
slots are never re-claimed - and put reports absent exactly when no position
in the lap has lock state 0. -/
theorem put_single_lap_lock_gated {T : Type} [Inhabited T] (s : Storage T)
    (f : T → T × Bool)
    (h2 : s.item_hdrs.length = s.header.size) :
    (s.put f).2.header.next_id = s.header.next_id + 1 ∧
    ((s.put f).1 = none ↔
      ∀ j, j < s.header.size →
        (s.item_hdrs.getD ((s.header.next_id + j) % s.header.size)
          hdr0).lock ≠ 0) := by
  refine ⟨(put_preserves_bookkeeping s f 0).2.2, ?_⟩
  rcases hEq : putGo f s.header.size s.item_hdrs s.items s.header.next_id
      s.header.size with _ | ⟨t2, hdrs2, items2⟩
  · have h1 : (s.put f).1 = none := by
      rw [Storage.put, hEq]
    rw [h1]
    simp only [true_iff]
    exact (putGo_none f s.header.size s.item_hdrs s.items s.header.size
      s.header.next_id).mp hEq
  · have h1 : (s.put f).1 = some t2 := by
      rw [Storage.put, hEq]
    rw [h1]
    constructor
    · intro h
      exact Option.noConfusion h
    · intro h
      obtain ⟨c1, c2, c3, c4, c5⟩ := putGo_some f _ _ _ _ _ _ _ _ hEq
      have hj := h (t2.id - s.header.next_id) (by omega)
      have harith : s.header.next_id + (t2.id - s.header.next_id) = t2.id :=
        by omega
      rw [harith] at hj
      exact absurd c1 hj

/-- C3 witness: the second put on a full one-slot ring (counter at 1, the one
candidate position occupied) bumps the counter and reports absent. -/
theorem put_single_lap_lock_gated_witness :
    ((st1.put (fput 7)).2.put (fput 8)).2.header.next_id = 2 ∧
    ((st1.put (fput 7)).2.put (fput 8)).1 = none := by
  have h := put_single_lap_lock_gated (st1.put (fput 7)).2 (fput 8) (by decide)
  exact ⟨h.1, h.2.mpr (by decide)⟩

/-- C4: the code evaluated at the failing input. The callback asks to abandon
the insertion (returns false), yet put keeps the claimed slot committed (lock
state 1, written data kept) and returns a token, instead of leaving the slot
empty as the claim requires. -/
theorem put_commits_despite_false_flag :
    st1.put (fun _ => (7, false))
        = (some ⟨0⟩, ⟨⟨1, 1⟩, [7], [⟨1, 0, 0⟩]⟩) := by
  decide

/-- C5: from state 0 create transitions to -1, runs the callback, stores 1
when the callback produced a value and 0 otherwise, and returns the callback
outcome; update follows the identical protocol from state exactly 1. -/
theorem lock_create_update_protocol {R : Type} (f g : Option R) :
    Lock.create 0 f = ⟨[0, -1, if f.isSome then 1 else 0], f, true⟩ ∧
    Lock.update 1 g = ⟨[1, -1, if g.isSome then 1 else 0], g, true⟩ := by
  constructor
  · rw [Lock.create, if_pos rfl]
  · rw [Lock.update, if_pos rfl]

/-- C6: every Lock operation invoked outside its precondition returns absent
with the callback not invoked and the state unchanged: create fails from any
state other than 0, update from any state other than 1 (so from 0, -1, and
values above 1), read from any nonpositive state; create does run its callback
from 0, update never claims an empty slot, and the write-locked state -1
rejects all three operations. -/
theorem lock_illegal_state_failures {R : Type} (s : Int) (f g : Option R)
    (v : R) :
    (s ≠ 0 → Lock.create s f = ⟨[s], none, false⟩) ∧
    (s ≠ 1 → Lock.update s g = ⟨[s], none, false⟩) ∧
    (s ≤ 0 → Lock.read s v = ⟨[s], none, false⟩) ∧
    (Lock.create 0 f).invoked = true ∧
    Lock.update 0 g = ⟨[0], none, false⟩ ∧
    Lock.create (-1) f = ⟨[-1], none, false⟩ ∧
    Lock.update (-1) g = ⟨[-1], none, false⟩ ∧
    Lock.read (-1) v = ⟨[-1], none, false⟩ := by
  refine ⟨?_, ?_, ?_, ?_, ?_, ?_, ?_, ?_⟩
  · intro h
    rw [Lock.create, if_neg h]
  · intro h
    rw [Lock.update, if_neg h]
  · intro h
    rw [Lock.read, if_neg (show ¬ (0 : Int) < s by omega)]
  · rw [Lock.create, if_pos rfl]
  · rw [Lock.update, if_neg (show ((0 : Int) = 1) → False by omega)]
  · rw [Lock.create, if_neg (show ((-1 : Int) = 0) → False by omega)]
  · rw [Lock.update, if_neg (show ((-1 : Int) = 1) → False by omega)]
  · rw [Lock.read, if_neg (show ¬ (0 : Int) < -1 by omega)]

/-- C6 witness: concrete illegal invocations all fail with state unchanged. -/
theorem lock_illegal_state_failures_witness :
    Lock.create 2 (some 1) = ⟨[2], none, false⟩ ∧
    Lock.update 2 (some 1) = ⟨[2], none, false⟩ ∧
    Lock.read 0 (5 : Nat) = ⟨[0], none, false⟩ := by
  refine ⟨?_, ?_, ?_⟩
  · exact (lock_illegal_state_failures 2 (some 1) (some 1) 5).1 (by decide)
  · exact (lock_illegal_state_failures 2 (some 1) (some 1) 5).2.1 (by decide)
  · exact (lock_illegal_state_failures 0 (some 1) (some 1) 5).2.2.1 (by decide)

/-- C7: from any positive state, read increments the state by exactly one,
runs the callback, decrements by exactly one, returns the callback result
wrapped present, and the final state equals the pre-read value. -/
theorem lock_read_balanced {R : Type} (s : Int) (h : 0 < s) (v : R) :
    Lock.read s v = ⟨[s, s + 1, s], some v, true⟩ ∧
    (Lock.read s v).final = s := by
  constructor
  · rw [Lock.read, if_pos h]
  · rw [LockRun.final, Lock.read, if_pos h]
    simp [List.getLastD]

/-- C7 witness: reading at state 3 passes through 4 and returns to 3. -/
theorem lock_read_balanced_witness :
    Lock.read 3 (5 : Nat) = ⟨[3, 4, 3], some 5, true⟩ ∧
    (Lock.read 3 (5 : Nat)).final = 3 := by
  exact lock_read_balanced 3 (by decide) 5

/-- C8 counterexample: put issues token id 1 without storing 1 into the slot
header (the stored id stays 0), so no id publication exists, and a reader
holding a stale token for a recycled position observes the new tenant data. -/
theorem c8_no_id_store_and_stale_read :
    ((st2.put (fput 1)).2.put (fput 2)).1 = some ⟨1⟩ ∧
    (((st2.put (fput 1)).2.put (fput 2)).2.item_hdrs.getD 1 hdr0).id = 0 ∧
    (st1.put (fput 42)).2.get ⟨5⟩ (fun x => x) = some 42 := by
  decide

/-- C8 (amended): put performs no store to any slot id (every stored id is
preserved verbatim), and get performs no load of a stored id: two storages
agreeing on header, data, and lock states but with arbitrary stored ids give
identical get results, so the code contains no id-based synchronization
between put and get. -/
theorem put_get_independent_of_ids {T R : Type} [Inhabited T]
    (s sa sb : Storage T) (f : T → T × Bool) (p : Nat) (t : Token)
    (g : T → R) :
    ((s.put f).2.item_hdrs.getD p hdr0).id = (s.item_hdrs.getD p hdr0).id ∧
    (sa.header = sb.header → sa.items = sb.items →
      (∀ q, (sa.item_hdrs.getD q hdr0).lock = (sb.item_hdrs.getD q hdr0).lock)
        → sa.get t g = sb.get t g) := by
  constructor
  · exact (put_preserves_bookkeeping s f p).2.1
  · intro hh hi hl
    rw [Storage.get, Storage.get, hh, hi, hl (t.id % sb.header.size)]

/-- C8 witness: put on the fresh one-slot storage preserves the stored id, and
two one-slot storages differing only in the stored id (99 versus 0) give the
same get result. -/
theorem put_get_independent_of_ids_witness :
    ((st1.put (fput 42)).2.item_hdrs.getD 0 hdr0).id
        = (st1.item_hdrs.getD 0 hdr0).id ∧
    (⟨⟨1, 0⟩, [5], [⟨1, 0, 99⟩]⟩ : Storage Nat).get ⟨0⟩ (fun x => x)
        = (⟨⟨1, 0⟩, [5], [⟨1, 0, 0⟩]⟩ : Storage Nat).get ⟨0⟩ (fun x => x) := by
  constructor
  · exact (put_get_independent_of_ids st1 st1 st1 (fput 42) 0 ⟨0⟩
      (fun x => x)).1
  · exact (put_get_independent_of_ids st1 ⟨⟨1, 0⟩, [5], [⟨1, 0, 99⟩]⟩
      ⟨⟨1, 0⟩, [5], [⟨1, 0, 0⟩]⟩ (fput 42) 0 ⟨0⟩ (fun x => x)).2 rfl rfl
      (by
        intro q
        cases q with
        | zero => rfl
        | succ n => rfl)

/-- C9 counterexample: constructing a Storage with slot count 0 and mismatched
array lengths (data length 0, header length 1) succeeds and yields that
storage; nothing fails fast at construction. -/
theorem c9_new_accepts_size_zero_and_mismatch :
    (Storage.new ⟨0, 7⟩ ([] : List Nat) [hdr0]).header.size = 0 ∧
    (Storage.new ⟨0, 7⟩ ([] : List Nat) [hdr0]).items.length
        ≠ (Storage.new ⟨0, 7⟩ ([] : List Nat) [hdr0]).item_hdrs.length := by
  decide

/-- C9 (amended): Storage.new performs no validation at all - for every
header and every pair of arrays, matching or not, it returns the storage
holding them verbatim; precondition violations are not detected at
construction time. -/
theorem new_performs_no_validation {T : Type} (h : StorageHdr)
    (items : List T) (item_hdrs : List ItemHdr) :
    Storage.new h items item_hdrs = ⟨h, items, item_hdrs⟩ :=
  rfl

/-- C10: on a well-formed storage (both arrays of the declared length), a
successful put followed immediately by get on the returned token succeeds, and
the get callback observes exactly the value the put callback wrote into the
slot at position token id mod size. -/
theorem put_get_roundtrip {T R : Type} [Inhabited T] (s : Storage T)
    (f : T → T × Bool) (g : T → R) (t : Token) (s2 : Storage T)
    (h1 : s.items.length = s.header.size)
    (h2 : s.item_hdrs.length = s.header.size)
    (hput : s.put f = (some t, s2)) :
    s2.get t g
        = some (g ((f (s.items.getD (t.id % s.header.size) default)).1)) := by
  obtain ⟨hsz, hhdr, hl0, hset, hitems, hlo, hhi⟩ :=
    put_success_core s f t s2 hput
  have hpos : t.id % s.header.size < s.header.size := Nat.mod_lt _ hsz
  have hszeq : s2.header.size = s.header.size := by
    rw [hhdr]
  have hlock : 0 < (s2.item_hdrs.getD (t.id % s2.header.size) hdr0).lock := by
    rw [hszeq, hset]
    rw [getD_set_self s.item_hdrs (t.id % s.header.size) _ hdr0 (by omega)]
    exact Int.zero_lt_one
  rw [get_pos_lock s2 t g hlock]
  rw [hszeq, hitems]
  rw [getD_set_self s.items (t.id % s.header.size) _ default (by omega)]

/-- C10 witness: on the fresh one-slot storage, put writes 42 and get on the
returned token observes 42. -/
theorem put_get_roundtrip_witness :
    (⟨⟨1, 1⟩, [42], [⟨1, 0, 0⟩]⟩ : Storage Nat).get ⟨0⟩ (fun x => x)
        = some 42 := by
  exact put_get_roundtrip st1 (fput 42) (fun x => x) ⟨0⟩
    ⟨⟨1, 1⟩, [42], [⟨1, 0, 0⟩]⟩ (by decide) (by decide) (by decide)
